import Mathlib

/-!
Verification of the feature-engineering core of the JRA racing-analytics
repository, shallowly embedded in Lean 4.

Source files embedded:
* `src/data/preprocessing.py` — `clean_race_data`, `calculate_last_3f_rank`,
  `add_previous_races_features`;
* `src/features/build_features.py` — the four grouped ROI builders, in
  particular the SQL aggregation shared by `SireTrackROIBuilder.build`,
  `JockeyCourseProfitBuilder.build`, `HorseCourseProfitBuilder.build`
  (`ROUND(SUM(CASE WHEN rank = 1 THEN odds ELSE 0 END)/NULLIF(COUNT(*),0)*100, 2)`),
  the in-process aggregation of `Last3FRankBuilder.build`
  (`roi = avg_win_odds * wins / total_horses * 100`), and the score accessors
  `get_sire_track_roi_score` and `get_course_roi_score`.

Modelling conventions:
* A pandas DataFrame is a list of rows plus the list of column names the
  stage consults (`cols`); a cell that can be NaN is an `Option`.
* Numbers are exact rationals `ℚ`; dates are day numbers `Option ℤ`
  (pandas `NaT` is `none`; `NaT < x` is `false` in pandas, which `dltB`
  mirrors).  Horse and race identifiers are `Nat` stand-ins for the
  repository's fixed-width digit strings (numeric order agrees with the
  lexicographic order pandas' `groupby(sort=True)` uses on them).
* `df.groupby('race_id').apply(calc_rank)` is modelled with the pandas ≥ 2
  semantics the source itself anticipates (it checks for and drops the
  MultiIndex that `group_keys=True` produces): the result concatenates the
  groups in ascending group-key order, each group keeping its original
  relative row order, and `reset_index(drop=True)` discards the original
  index.
-/

namespace JRA

/-- One result row as consumed by `calculate_last_3f_rank` and
`add_previous_races_features` (cleaned data).  The trailing fields are the
derived rolling-history feature columns; on raw input they are `none`
(column absent ⇒ cell missing). -/
structure Row where
  horse_id : Nat
  race_id : Nat
  race_date : Option Int
  kyori : Option ℚ
  track_type : String
  distance_category : Option String
  rank : Option ℚ
  popularity : Option ℚ
  futan_juryo : Option ℚ
  last_3f : Option ℚ
  last_3f_rank : Option ℚ
  avg_last_n_rank : Option ℚ := none
  win_rate_last_n : Option ℚ := none
  top2_rate_last_n : Option ℚ := none
  top3_rate_last_n : Option ℚ := none
  avg_rank_same_track : Option ℚ := none
  avg_rank_same_distance : Option ℚ := none
  days_since_last_race : Option Int := none
  last_race_rank : Option ℚ := none
  last_race_popularity : Option ℚ := none
  weight_diff_from_last : Option ℚ := none
  best_last_3f : Option ℚ := none
  count_last_3f_rank1 : Option Nat := none
  deriving DecidableEq, Repr

/-- A tabular result set: the column names present in the frame (only the
names the embedded stages consult matter) and the rows. -/
structure DataFrame where
  cols : List String
  rows : List Row
  deriving DecidableEq, Repr

/-! ## Derived-rank stage: `calculate_last_3f_rank` -/

/-- Non-missing `last_3f` values of a race group
(`group['last_3f'].dropna()`). -/
def last3fVals (g : List Row) : List ℚ := g.filterMap (fun r => r.last_3f)

/-- pandas `Series.rank(method='min')`, ascending: competition rank of `v`
among `vals` is one more than the number of strictly smaller values. -/
def competitionRank (vals : List ℚ) (v : ℚ) : ℚ :=
  ((1 + vals.countP (fun u => decide (u < v)) : Nat) : ℚ)

/-- `calc_rank` applied to one race group: rows with a non-missing
`last_3f` get `last_3f_rank`; rows with a missing one are not assigned
(they keep whatever was there — NaN on raw input). -/
def rankGroup (g : List Row) : List Row :=
  let vals := last3fVals g
  g.map (fun r =>
    match r.last_3f with
    | some v => { r with last_3f_rank := some (competitionRank vals v) }
    | none => r)

/-- Insert a race id into an ascending duplicate-free list of race ids. -/
def insertKey (k : Nat) : List Nat → List Nat
  | [] => [k]
  | x :: xs => if k < x then k :: x :: xs else if k = x then x :: xs else x :: insertKey k xs

/-- The distinct race ids of a result set in ascending order — the group
keys of `df.groupby('race_id')` (pandas sorts group keys). -/
def raceKeys (rows : List Row) : List Nat :=
  (rows.map (fun r => r.race_id)).foldr insertKey []

/-- `calculate_last_3f_rank` (src/data/preprocessing.py:107-143).  Empty
input or no `last_3f` column: the input is returned as-is.  Otherwise the
race groups are ranked and re-concatenated in ascending race-id order
(pandas ≥ 2 `groupby.apply` with `group_keys=True`, whose MultiIndex the
source drops with `reset_index(drop=True)`). -/
def calculate_last_3f_rank (df : DataFrame) : DataFrame :=
  if df.rows = [] then df
  else if df.cols.contains "last_3f" then
    { df with
      rows := (raceKeys df.rows).flatMap
        (fun k => rankGroup (df.rows.filter (fun r => r.race_id == k))) }
  else df

/-- A row with its derived rolling-feature columns blanked — used to state
that the derived-rank stage changes nothing but `last_3f_rank`. -/
def stripRank (r : Row) : Row := { r with last_3f_rank := none }

/-! ## Rolling-history stage: `add_previous_races_features` -/

/-- Strict date comparison; missing dates (NaT) compare `false`, as in
pandas. -/
def dltB : Option Int → Option Int → Bool
  | some a, some b => decide (a < b)
  | _, _ => false

/-- Insert a row into a list already sorted by ascending `race_date`,
after every strictly earlier row (stable sort;
the source's `sort_values('race_date')`). -/
def insRowByDate (x : Row) : List Row → List Row
  | [] => [x]
  | y :: ys => if dltB y.race_date x.race_date then y :: insRowByDate x ys else x :: y :: ys

/-- Sort rows by ascending `race_date` (`horse_races.sort_values('race_date')`;
order of rows sharing a date is incidental in the source — the spec calls it
unspecified). -/
def sortRowsByDate : List Row → List Row
  | [] => []
  | x :: xs => insRowByDate x (sortRowsByDate xs)

/-- `DataFrame.tail(n)`: the last `n` elements. -/
def lastN (n : Nat) (l : List α) : List α := l.drop (l.length - n)

/-- `df_result[df_result['horse_id'] == horse_id].sort_values('race_date')`. -/
def horseRaces (rows : List Row) (h : Nat) : List Row :=
  sortRowsByDate (rows.filter (fun x => x.horse_id == h))

/-- The rolling window of row `r`:
`horse_races[horse_races['race_date'] < race_date].tail(n_previous)` —
the at-most-`n` most recent same-horse rows strictly earlier than `r`. -/
def prevWindow (rows : List Row) (n : Nat) (r : Row) : List Row :=
  lastN n ((horseRaces rows r.horse_id).filter (fun x => dltB x.race_date r.race_date))

/-- `(series == 1)` on a possibly-missing rank: NaN compares `false`. -/
def isOneQ : Option ℚ → Bool
  | some v => decide (v = 1)
  | none => false

/-- `(series <= k)` on a possibly-missing rank: NaN compares `false`. -/
def leQ (k : ℚ) : Option ℚ → Bool
  | some v => decide (v ≤ k)
  | none => false

/-- Mean of a boolean series over the whole window (`(…).mean()` on a
comparison result: missing entries count `false` but stay in the
denominator). -/
def rateOf (w : List Row) (p : Row → Bool) : ℚ :=
  ((w.countP p : Nat) : ℚ) / ((w.length : Nat) : ℚ)

/-- pandas `Series.mean()`: skip missing values; mean of an all-missing
series is NaN (`none`). -/
def meanOpt (l : List (Option ℚ)) : Option ℚ :=
  let v := l.filterMap id
  if v = [] then none else some (v.sum / ((v.length : Nat) : ℚ))

/-- Minimum of a list of rationals (`Series.min()` after `dropna`). -/
def listMinQ : List ℚ → Option ℚ
  | [] => none
  | x :: xs =>
    match listMinQ xs with
    | none => some x
    | some m => some (min x m)

/-- The per-row body of the double loop in `add_previous_races_features`
(src/data/preprocessing.py:176-229).  `rows` is the whole frame; the window
selects the same-horse history.  An empty window assigns nothing. -/
def computeFeatures (cols : List String) (rows : List Row) (n : Nat) (r : Row) : Row :=
  let w := prevWindow rows n r
  match w.getLast? with
  | none => r
  | some lr =>
    { r with
      avg_last_n_rank := meanOpt (w.map (fun x => x.rank)),
      win_rate_last_n := some (rateOf w (fun x => isOneQ x.rank)),
      top2_rate_last_n := some (rateOf w (fun x => leQ 2 x.rank)),
      top3_rate_last_n := some (rateOf w (fun x => leQ 3 x.rank)),
      avg_rank_same_track :=
        (let st := w.filter (fun x => x.track_type == r.track_type)
         if st = [] then r.avg_rank_same_track else meanOpt (st.map (fun x => x.rank))),
      avg_rank_same_distance :=
        (if cols.contains "distance_category" then
          let sd := w.filter (fun x => x.distance_category == r.distance_category)
          if sd = [] then r.avg_rank_same_distance else meanOpt (sd.map (fun x => x.rank))
         else r.avg_rank_same_distance),
      days_since_last_race :=
        (match r.race_date, lr.race_date with
         | some d, some d' => some (d - d')
         | _, _ => r.days_since_last_race),
      last_race_rank := lr.rank,
      last_race_popularity :=
        (if cols.contains "popularity" then lr.popularity else r.last_race_popularity),
      weight_diff_from_last :=
        (if cols.contains "futan_juryo" then
          match r.futan_juryo, lr.futan_juryo with
          | some a, some b => some (a - b)
          | _, _ => none
         else r.weight_diff_from_last),
      best_last_3f :=
        (if cols.contains "last_3f" then
          match listMinQ (w.filterMap (fun x => x.last_3f)) with
          | some m => some m
          | none => r.best_last_3f
         else r.best_last_3f),
      count_last_3f_rank1 :=
        (if cols.contains "last_3f_rank" then
          some (w.countP (fun x => isOneQ x.last_3f_rank))
         else r.count_last_3f_rank1) }

/-- The columns `add_previous_races_features` requires
(src/data/preprocessing.py:162). -/
def requiredPrevCols : List String :=
  ["horse_id", "race_id", "race_date", "kyori", "track_type"]

/-- The required columns absent from the frame (`missing_cols`). -/
def prevMissingCols (df : DataFrame) : List String :=
  requiredPrevCols.filter (fun c => !(df.cols.contains c))

/-- `add_previous_races_features` (src/data/preprocessing.py:145-231).
Empty input passes through; a frame missing a required column is returned
unmodified after a printed warning (the warning branch is
`prevMissingCols df ≠ []`).  Otherwise every row receives the rolling
features of its own strictly-earlier same-horse window — in the source the
windows are read from a snapshot whose raw columns the loop never mutates,
so the per-row computation is a pure function of the input rows. -/
def add_previous_races_features (df : DataFrame) (n : Nat := 5) : DataFrame :=
  if df.rows = [] then df
  else if prevMissingCols df = [] then
    { df with rows := df.rows.map (fun r => computeFeatures df.cols df.rows n r) }
  else df

/-! ## Grouped ROI builders: `build_features.py` -/

/-- One filtered population row of the SQL aggregations shared by
`SireTrackROIBuilder.build`, `JockeyCourseProfitBuilder.build` and
`HorseCourseProfitBuilder.build`: the `WHERE` clause guarantees a valid
integer finishing rank (`kakutei_chakujun ~ '^[0-9]+$'`, not `00`/`99`)
and present popularity and odds (`tansho_odds IS NOT NULL`);
`odds = CAST(tansho_odds AS NUMERIC)/10.0` is a nonnegative multiple of
`1/10`. -/
structure SqlEntry where
  rank : Nat
  popularity : Nat
  odds : ℚ
  deriving DecidableEq, Repr

/-- `COUNT(*) FILTER (WHERE rank = 1)`. -/
def sqlWins (g : List SqlEntry) : Nat := g.countP (fun e => decide (e.rank = 1))

/-- `SUM(CASE WHEN rank = 1 THEN odds ELSE 0 END)`. -/
def sqlWinOddsSum (g : List SqlEntry) : ℚ :=
  (g.map (fun e => if e.rank = 1 then e.odds else 0)).sum

/-- SQL `ROUND(x, 2)` on a `NUMERIC` (half away from zero; all values the
builders round are nonnegative, where it is half-up = Lean `round`). -/
def round2 (x : ℚ) : ℚ := ((round (x * 100) : Int) : ℚ) / 100

/-- `roi_percentage` of one grouping of the three SQL builders:
`ROUND(SUM(CASE WHEN rank = 1 THEN odds ELSE 0 END)/NULLIF(COUNT(*),0)*100, 2)`
(the `HAVING COUNT(*) >= min` clause makes the count nonzero for every
emitted grouping; for an empty group the model's `x/0 = 0` mirrors the
`NULLIF` guard only formally). -/
def sqlRoiPct (g : List SqlEntry) : ℚ :=
  round2 (sqlWinOddsSum g / ((g.length : Nat) : ℚ) * 100)

/-- One row of the in-process population of `Last3FRankBuilder.build`
(`combined_results` after cleaning): rank and odds may be missing. -/
structure PEntry where
  rank : Option Nat
  odds : Option ℚ
  popularity : Option Nat
  deriving DecidableEq, Repr

/-- `wins = (x == 1).sum()` over the group's ranks. -/
def pWins (g : List PEntry) : Nat := g.countP (fun e => e.rank == some 1)

/-- `avg_win_odds = x[rank == 1].mean()`: mean of the winners' present
odds; NaN (`none`) when there is no such value. -/
def pAvgWinOdds (g : List PEntry) : Option ℚ :=
  let v := (g.filter (fun e => e.rank == some 1)).filterMap (fun e => e.odds)
  if v = [] then none else some (v.sum / ((v.length : Nat) : ℚ))

/-- `Last3FRankBuilder.build` (src/features/build_features.py:795):
`roi = avg_win_odds * wins / total_horses * 100`.  A NaN `avg_win_odds`
makes the whole product NaN (`none`). -/
def last3fRoi (g : List PEntry) : Option ℚ :=
  (pAvgWinOdds g).map
    (fun a => a * ((pWins g : Nat) : ℚ) / ((g.length : Nat) : ℚ) * 100)

/-- One cached aggregate row of `SireTrackROIBuilder`. -/
structure SireAggRow where
  sire_name : String
  track_type : String
  baba_condition : String
  roi_percentage : ℚ
  deriving DecidableEq, Repr

/-- One cached aggregate row of `HorseCourseProfitBuilder`. -/
structure HorseAggRow where
  horse_id : String
  course_name : String
  track_type : String
  distance_category : String
  roi_percentage : ℚ
  deriving DecidableEq, Repr

/-- pandas `Series.mean()` over the whole ROI column (`mean` of an empty
table is NaN in pandas; the model's `0/0 = 0` is only reached when the
match branch below is not taken). -/
def meanRoi (rois : List ℚ) : ℚ := rois.sum / ((rois.length : Nat) : ℚ)

/-- `SireTrackROIBuilder.get_sire_track_roi_score`
(src/features/build_features.py:173-203): the first cached row matching
the key, normalised to the table mean (=100); `100.0` when no row
matches. -/
def get_sire_track_roi_score (table : List SireAggRow)
    (sire_name track_type baba_condition : String) : ℚ :=
  let avg := meanRoi (table.map (fun r => r.roi_percentage))
  match table.find? (fun r =>
      r.sire_name == sire_name && r.track_type == track_type &&
      r.baba_condition == baba_condition) with
  | some row => row.roi_percentage / avg * 100
  | none => 100

/-- `HorseCourseProfitBuilder.get_course_roi_score`
(src/features/build_features.py:683-715): same default-to-average
policy over the horse×course key. -/
def get_course_roi_score (table : List HorseAggRow)
    (horse_id course_name track_type distance_category : String) : ℚ :=
  let avg := meanRoi (table.map (fun r => r.roi_percentage))
  match table.find? (fun r =>
      r.horse_id == horse_id && r.course_name == course_name &&
      r.track_type == track_type && r.distance_category == distance_category) with
  | some row => row.roi_percentage / avg * 100
  | none => 100

/-- One cached aggregate row of `JockeyCourseProfitBuilder` (the score
predicate consults the jockey code, not the name). -/
structure JockeyAggRow where
  kishu_code : String
  course_name : String
  track_type : String
  distance_category : String
  roi_percentage : ℚ
  deriving DecidableEq, Repr

/-- `JockeyCourseProfitBuilder.get_jockey_course_roi_score`
(src/features/build_features.py:414-446): same lookup pattern as the sire
and horse accessors — first cached row matching the key normalised to the
table mean (=100), `100.0` when no row matches. -/
def get_jockey_course_roi_score (table : List JockeyAggRow)
    (jockey_code course_name track_type distance_category : String) : ℚ :=
  let avg := meanRoi (table.map (fun r => r.roi_percentage))
  match table.find? (fun r =>
      r.kishu_code == jockey_code && r.course_name == course_name &&
      r.track_type == track_type && r.distance_category == distance_category) with
  | some row => row.roi_percentage / avg * 100
  | none => 100

/-- One cached row of `Last3FRankBuilder`'s aggregate (`last_3f_data`):
the columns its accessor consults. -/
structure L3fStatsRow where
  last_3f_rank : ℚ
  popularity_group : String
  roi : ℚ
  deriving DecidableEq, Repr

/-- Insert into a list sorted by ascending `last_3f_rank` (stable). -/
def insL3fRow (x : L3fStatsRow) : List L3fStatsRow → List L3fStatsRow
  | [] => [x]
  | y :: ys =>
    if y.last_3f_rank < x.last_3f_rank then y :: insL3fRow x ys else x :: y :: ys

/-- `sort_values('last_3f_rank')` (order among equal ranks is incidental
in the source, as with every pandas sort here). -/
def sortL3fRows : List L3fStatsRow → List L3fStatsRow
  | [] => []
  | x :: xs => insL3fRow x (sortL3fRows xs)

/-- `Last3FRankBuilder.get_last_3f_roi_stats`
(src/features/build_features.py:844-860): the cache filtered to one
popularity group and sorted by rank. -/
def get_last_3f_roi_stats (table : List L3fStatsRow) (pg : String) : List L3fStatsRow :=
  sortL3fRows (table.filter (fun r => r.popularity_group == pg))

/-- `stats.iloc[(stats['last_3f_rank'] - last_3f_rank).abs().argsort()[0]]`:
the earliest row whose rank is closest to the query (ties among equal
distances are incidental in numpy's argsort; the model keeps the earliest). -/
def closestByRank (q : ℚ) (x : L3fStatsRow) : List L3fStatsRow → L3fStatsRow
  | [] => x
  | y :: ys =>
    if |y.last_3f_rank - q| < |x.last_3f_rank - q| then closestByRank q y ys
    else closestByRank q x ys

/-- `Last3FRankBuilder.get_last_3f_roi_adjustment`
(src/features/build_features.py:862-885): `1.0` when the group's stats
slice is empty, otherwise the closest cached rank's ROI divided by the
slice's mean ROI — a multiplier around `1.0`, with no `× 100`. -/
def get_last_3f_roi_adjustment (table : List L3fStatsRow) (q : ℚ) (pg : String) : ℚ :=
  match get_last_3f_roi_stats table pg with
  | [] => 1
  | x :: xs =>
    let avg := meanRoi ((x :: xs).map (fun r => r.roi))
    (closestByRank q x xs).roi / avg

/-! ## Cleaning stage: `clean_race_data`

The cleaning stage works on raw query output whose cells are strings,
numbers, missing values, infinities (producible by upstream division or by
`pd.to_numeric("inf")`) or dates.  `clean_race_data` consults a fixed,
known set of columns; the model gives a row one field per consulted column
plus a passthrough list for all others, and records per-column presence in
a flag structure (pandas `col in df.columns`).  The step order of the
source is kept: numeric coercions, then `race_date`, then the global
`replace([inf, -inf], nan)`, then the derived label columns and the
signed weight change. -/

/-- A raw cell value. -/
inductive Val where
  | vstr : String → Val
  | vnum : ℚ → Val
  | vinf : Bool → Val
  | vnan : Val
  | vdate : Int → Val
  deriving DecidableEq, Repr

/-- Digits of a char list as a number (`none` on a non-digit or on the
empty list). -/
def digitsToNat : List Char → Option Nat
  | [] => none
  | cs => cs.foldl
      (fun acc c => acc.bind (fun n => if c.isDigit then some (n * 10 + (c.toNat - 48)) else none))
      (some 0)

/-- Split a char list at its first `'.'`; `none` when there is no dot. -/
def dotSplit : List Char → Option (List Char × List Char)
  | [] => none
  | c :: cs =>
    if c = '.' then some ([], cs)
    else (dotSplit cs).map (fun p => (c :: p.1, p.2))

/-- Parse a decimal numeral (optional sign, optional single dot) into an
exact rational; `none` for anything else.  Stands in for the accepting set
of `pd.to_numeric` on the repository's digit-string data. -/
def parseRatStr (s : String) : Option ℚ :=
  let cs := s.toList
  let signed : Bool × List Char :=
    match cs with
    | '-' :: rest => (true, rest)
    | _ => (false, cs)
  let body : Option ℚ :=
    match dotSplit signed.2 with
    | none => (digitsToNat signed.2).map (fun n => ((n : Nat) : ℚ))
    | some p =>
      match digitsToNat p.1, digitsToNat p.2 with
      | some n, some m => some (((n : Nat) : ℚ) + ((m : Nat) : ℚ) / ((10 : ℚ) ^ p.2.length))
      | _, _ => none
  body.map (fun q => if signed.1 then -q else q)

/-- `pd.to_numeric(col, errors='coerce')` on one cell: numbers, NaN and
infinities pass through; strings are parsed (`"inf"`/`"-inf"` become
infinities), anything unparseable becomes NaN.  A datetime cell never
reaches this coercion in the pipeline; it is sent to NaN. -/
def toNumeric : Val → Val
  | .vstr s =>
    if s = "inf" then .vinf true
    else if s = "-inf" then .vinf false
    else
      match parseRatStr s with
      | some q => .vnum q
      | none => .vnan
  | .vnum q => .vnum q
  | .vinf b => .vinf b
  | .vnan => .vnan
  | .vdate _ => .vnan

/-- `replace([np.inf, -np.inf], np.nan)` on one cell. -/
def replaceInfV : Val → Val
  | .vinf _ => .vnan
  | v => v

/-- `pd.to_datetime(nen + tsukihi, format='%Y%m%d', errors='coerce')`:
string concatenation of the two raw cells, parsed as an 8-digit date with
a plausibility check on month and day; anything else is NaT. -/
def concatDateV : Val → Val → Val
  | .vstr a, .vstr b =>
    let s := a ++ b
    if s.length = 8 then
      match digitsToNat s.toList with
      | some n =>
        if 1 ≤ n / 100 % 100 ∧ n / 100 % 100 ≤ 12 ∧ 1 ≤ n % 100 ∧ n % 100 ≤ 31 then
          .vdate (n : Int)
        else .vnan
      | none => .vnan
    else .vnan
  | _, _ => .vnan

/-- Python `str(cell)` as far as the category maps look at it.  On the raw
string codes of the schema this is the string itself; the renderings of
non-string cells are deterministic stand-ins (none of them starts with a
code digit the maps match, mirroring `str(nan)` = `"nan"` etc.). -/
def valStr : Val → String
  | .vstr s => s
  | .vnum _ => "num"
  | .vinf true => "inf"
  | .vinf false => "-inf"
  | .vnan => "nan"
  | .vdate _ => "date"

/-- `'芝' if str(x).startswith('1') else 'ダート' if str(x).startswith('2')
else 'その他'`. -/
def trackTypeV (v : Val) : Val :=
  let s := valStr v
  .vstr (if s.startsWith "1" then "芝" else if s.startsWith "2" then "ダート" else "その他")

/-- `babajotai_map.get(str(x), 'その他')`. -/
def babaCondV (v : Val) : Val :=
  let s := valStr v
  .vstr (if s = "1" then "良" else if s = "2" then "稍重" else if s = "3" then "重"
         else if s = "4" then "不良" else "その他")

/-- `seibetsu_map.get(str(x), '不明')`. -/
def sexV (v : Val) : Val :=
  let s := valStr v
  .vstr (if s = "1" then "牡" else if s = "2" then "牝" else if s = "3" then "セン" else "不明")

/-- Python `int()` truncation toward zero of a rational. -/
def truncQ (q : ℚ) : Int := if q < 0 then -(⌊-q⌋) else ⌊q⌋

/-- `row['zogen_fugo'] == '-'`. -/
def isDashV : Val → Bool
  | .vstr s => decide (s = "-")
  | _ => false

/-- The two `apply` lambdas computing `weight_change`
(src/data/preprocessing.py:94-103): magnitude `int(zogen_sa)` when present
else `0`, negated when the sign flag cell is `'-'`. -/
def signedChange (zs fugo : Val) : Int :=
  let base : Int :=
    match zs with
    | .vnum q => truncQ q
    | _ => 0
  if isDashV fugo then -base else base

/-- Coerce one cell of a numeric-listed column and apply the later
inf-replacement (`replaceInfV ∘ toNumeric` when the column is present). -/
def coerceCell (present : Bool) (v : Val) : Val :=
  replaceInfV (if present then toNumeric v else v)

/-- Presence flags for the columns `clean_race_data` consults
(`col in df.columns`; the derived output columns are never consulted). -/
structure CCols where
  kyori : Bool
  bataiju : Bool
  zogen_sa : Bool
  odds : Bool
  time_value : Bool
  last_3f : Bool
  rank : Bool
  popularity : Bool
  kaisai_nen : Bool
  kaisai_tsukihi : Bool
  track_code : Bool
  babajotai_code : Bool
  barei : Bool
  seibetsu_code : Bool
  zogen_fugo : Bool
  deriving DecidableEq, Repr

/-- One raw result row: a field per column `clean_race_data` touches plus
a passthrough for every other column of the frame. -/
structure CRow where
  kyori : Val
  bataiju : Val
  zogen_sa : Val
  odds : Val
  time_value : Val
  last_3f : Val
  rank : Val
  popularity : Val
  kaisai_nen : Val
  kaisai_tsukihi : Val
  track_code : Val
  babajotai_code : Val
  barei : Val
  seibetsu_code : Val
  zogen_fugo : Val
  race_date : Val
  track_type : Val
  baba_condition : Val
  age : Val
  sex : Val
  weight_change : Val
  extra : List (String × Val)
  deriving DecidableEq, Repr

/-- A raw result set for the cleaning stage. -/
structure CDF where
  cols : CCols
  rows : List CRow
  deriving DecidableEq, Repr

/-- The whole per-row dataflow of `clean_race_data`
(src/data/preprocessing.py:17-105), fields in the source's step order:
the eight listed numeric columns are coerced when present; `race_date` is
built from the raw year and month-day strings; the global inf→nan replace
hits every cell existing at that point; the label columns, `age` and the
signed `weight_change` are then derived from the (replaced) source
columns. -/
def cleanRow (f : CCols) (r : CRow) : CRow where
  kyori := coerceCell f.kyori r.kyori
  bataiju := coerceCell f.bataiju r.bataiju
  zogen_sa := coerceCell f.zogen_sa r.zogen_sa
  odds := coerceCell f.odds r.odds
  time_value := coerceCell f.time_value r.time_value
  last_3f := coerceCell f.last_3f r.last_3f
  rank := coerceCell f.rank r.rank
  popularity := coerceCell f.popularity r.popularity
  kaisai_nen := replaceInfV r.kaisai_nen
  kaisai_tsukihi := replaceInfV r.kaisai_tsukihi
  track_code := replaceInfV r.track_code
  babajotai_code := replaceInfV r.babajotai_code
  barei := replaceInfV r.barei
  seibetsu_code := replaceInfV r.seibetsu_code
  zogen_fugo := replaceInfV r.zogen_fugo
  race_date := replaceInfV
    (if f.kaisai_nen && f.kaisai_tsukihi then concatDateV r.kaisai_nen r.kaisai_tsukihi
     else r.race_date)
  track_type :=
    if f.track_code then trackTypeV (replaceInfV r.track_code) else replaceInfV r.track_type
  baba_condition :=
    if f.babajotai_code then babaCondV (replaceInfV r.babajotai_code)
    else replaceInfV r.baba_condition
  age := if f.barei then toNumeric (replaceInfV r.barei) else replaceInfV r.age
  sex := if f.seibetsu_code then sexV (replaceInfV r.seibetsu_code) else replaceInfV r.sex
  weight_change :=
    if f.bataiju && f.zogen_fugo && f.zogen_sa then
      .vnum ((signedChange (coerceCell f.zogen_sa r.zogen_sa) (replaceInfV r.zogen_fugo) : Int) : ℚ)
    else replaceInfV r.weight_change
  extra := r.extra.map (fun p => (p.1, replaceInfV p.2))

/-- `clean_race_data` (src/data/preprocessing.py:17-105): empty input
passes through unchanged, otherwise every row is cleaned (the source works
on a copy; presence flags are unchanged because the stage only adds
derived columns it never consults). -/
def clean_race_data (df : CDF) : CDF :=
  if df.rows = [] then df
  else { df with rows := df.rows.map (cleanRow df.cols) }

/-! ## Concrete scenario data -/

/-- One cleaned row of the C1 scenario horse (entity 1): races on days
`d = 1..6`, finishing ranks 1, 1, 1, 4, 2, 3. -/
def c1row (rid : Nat) (d : Int) (rk : ℚ) : Row where
  horse_id := 1
  race_id := rid
  race_date := some d
  kyori := some 1600
  track_type := "芝"
  distance_category := some "中距離"
  rank := some rk
  popularity := some 1
  futan_juryo := some 55
  last_3f := none
  last_3f_rank := none

/-- The C1 scenario frame: one horse, six races on days 1 < 2 < 3 < 4 < 5 < 6. -/
def c1df : DataFrame where
  cols := ["horse_id", "race_id", "race_date", "kyori", "track_type"]
  rows := [c1row 1 1 1, c1row 2 2 1, c1row 3 3 1, c1row 4 4 4, c1row 5 5 2, c1row 6 6 3]

/-- One row of the C2 scenario race (race 7) with final-furlong time `t`. -/
def c2row (h : Nat) (t : ℚ) : Row where
  horse_id := h
  race_id := 7
  race_date := some 10
  kyori := some 1200
  track_type := "芝"
  distance_category := none
  rank := none
  popularity := none
  futan_juryo := none
  last_3f := some t
  last_3f_rank := none

/-- The C2 scenario frame: one race, final-furlong times `[35.2, 35.2, 34.9]`. -/
def c2df : DataFrame where
  cols := ["race_id", "last_3f"]
  rows := [c2row 1 35.2, c2row 2 35.2, c2row 3 34.9]

/-- C5 counterexample frame: two one-row races arriving in descending
race-id order `[2, 1]`. -/
def c5df : DataFrame where
  cols := ["race_id", "last_3f"]
  rows := [{ c2row 1 36 with race_id := 2 }, { c2row 2 35 with race_id := 1 }]

/-- C9 witness frame: non-empty but missing the `race_date` column. -/
def c9df : DataFrame where
  cols := ["horse_id", "race_id", "kyori", "track_type"]
  rows := [c1row 1 1 1]

/-- C7 witness rows: horse 2 with two races. -/
def c7rows : List Row :=
  [{ c1row 11 1 2 with horse_id := 2, rank := none }, { c1row 12 2 1 with horse_id := 2 }]

/-- C3 counterexample group for the in-process builder: a single
non-winning entry (rank 2 at odds 3), so the grouping has zero wins. -/
def c3zeroWinGroup : List PEntry := [{ rank := some 2, odds := some 3, popularity := some 1 }]

/-- C3 witness group for the in-process builder: every entry wins at odds
`25/10`. -/
def c3allWinGroup : List PEntry :=
  [{ rank := some 1, odds := some ((25 : ℚ) / 10), popularity := some 1 },
   { rank := some 1, odds := some ((25 : ℚ) / 10), popularity := some 2 }]

/-- C3 witness group for the SQL builders: every entry wins at odds
`5/10`. -/
def c3sqlAllWin : List SqlEntry :=
  [{ rank := 1, popularity := 1, odds := (5 : ℚ) / 10 },
   { rank := 1, popularity := 2, odds := (5 : ℚ) / 10 }]

/-- C3 auxiliary group for the SQL builders: no entry wins. -/
def c3sqlNoWin : List SqlEntry := [{ rank := 3, popularity := 1, odds := 7 }]

/-- C8 witness table: one cached sire aggregate. -/
def c8sireTable : List SireAggRow :=
  [{ sire_name := "A", track_type := "芝", baba_condition := "良", roi_percentage := 80 }]

/-- C8 witness table: one cached horse×course aggregate. -/
def c8horseTable : List HorseAggRow :=
  [{ horse_id := "H1", course_name := "東京", track_type := "芝",
     distance_category := "中距離", roi_percentage := 120 }]

/-- C8 witness table: one cached jockey×course aggregate. -/
def c8jockeyTable : List JockeyAggRow :=
  [{ kishu_code := "J1", course_name := "東京", track_type := "芝",
     distance_category := "短距離", roi_percentage := 90 }]

/-- C8 witness stats rows for the rank×ROI accessor. -/
def c8l3fRow1 : L3fStatsRow :=
  { last_3f_rank := 1, popularity_group := "全体", roi := 120 }

def c8l3fRow2 : L3fStatsRow :=
  { last_3f_rank := 2, popularity_group := "全体", roi := 80 }

def c8l3fTable : List L3fStatsRow := [c8l3fRow1, c8l3fRow2]

/-- C8 counterexample cache: non-empty, but holding no row for the
queried popularity group. -/
def c8l3fMissTable : List L3fStatsRow :=
  [{ last_3f_rank := 1, popularity_group := "全体", roi := 50 }]

/-- C6 witness-style raw frame (used in examples): a single raw row with
all consulted columns present as strings. -/
def c6flags : CCols where
  kyori := true
  bataiju := true
  zogen_sa := true
  odds := true
  time_value := true
  last_3f := true
  rank := true
  popularity := true
  kaisai_nen := true
  kaisai_tsukihi := true
  track_code := true
  babajotai_code := true
  barei := true
  seibetsu_code := true
  zogen_fugo := true

/-! ## Helper lemmas -/

theorem mem_insRowByDate {a x : Row} {l : List Row} :
    a ∈ insRowByDate x l ↔ a = x ∨ a ∈ l := by
  induction l with
  | nil => simp [insRowByDate]
  | cons y ys ih =>
    by_cases h : dltB y.race_date x.race_date = true
    · simp only [insRowByDate, if_pos h, List.mem_cons, ih]
      try tauto
    · simp only [insRowByDate, if_neg h, List.mem_cons]
      try tauto

theorem mem_sortRowsByDate {a : Row} {l : List Row} :
    a ∈ sortRowsByDate l ↔ a ∈ l := by
  induction l with
  | nil => simp [sortRowsByDate]
  | cons x xs ih => simp [sortRowsByDate, mem_insRowByDate, ih]

theorem length_lastN_le (n : Nat) (l : List α) : (lastN n l).length ≤ n := by
  simp only [lastN, List.length_drop]
  omega

theorem mem_of_mem_lastN {a : α} {n : Nat} {l : List α} (h : a ∈ lastN n l) : a ∈ l :=
  List.drop_subset _ l h

theorem mem_prevWindow {rows : List Row} {n : Nat} {r x : Row}
    (h : x ∈ prevWindow rows n r) :
    x.horse_id = r.horse_id ∧ dltB x.race_date r.race_date = true := by
  simp only [prevWindow, horseRaces] at h
  have h1 := mem_of_mem_lastN h
  have h2 := List.mem_filter.mp h1
  have h3 := List.mem_filter.mp (mem_sortRowsByDate.mp h2.1)
  exact ⟨by simpa using h3.2, h2.2⟩

/-! ## Claim theorems -/

/-- C10: the derived-rank stage returns its input unchanged when the
input is empty or lacks the `last_3f` column, and raises nothing (it is a
total function). -/
theorem C10_derived_rank_passthrough (df : DataFrame)
    (h : df.rows = [] ∨ "last_3f" ∉ df.cols) :
    calculate_last_3f_rank df = df := by
  rcases h with h | h
  · simp [calculate_last_3f_rank, h]
  · by_cases h2 : df.rows = [] <;> simp [calculate_last_3f_rank, h, h2]

theorem C10_witness :
    calculate_last_3f_rank { cols := ["last_3f"], rows := [] } =
      ({ cols := ["last_3f"], rows := [] } : DataFrame) :=
  C10_derived_rank_passthrough _ (Or.inl rfl)

/-- C9: a non-empty frame missing one of the required columns passes
through the rolling-history stage unmodified (the source prints a warning
— the `prevMissingCols df ≠ []` branch — instead of raising; the embedded
function is total, so no error is possible). -/
theorem C9_rolling_missing_columns (df : DataFrame) (n : Nat)
    (hne : df.rows ≠ []) (hmiss : prevMissingCols df ≠ []) :
    add_previous_races_features df n = df := by
  simp [add_previous_races_features, hne, hmiss]

theorem C9_witness : add_previous_races_features c9df 5 = c9df :=
  C9_rolling_missing_columns c9df 5 (by simp [c9df]) (by simp [prevMissingCols, requiredPrevCols, c9df])

/-- C4: a row of the rolling-history stage whose horse has no strictly
earlier race (so its window is empty) is returned exactly as it came in:
the per-row transform assigns none of the derived features, in particular
none of them is defaulted to zero. -/
theorem C4_empty_window_leaves_unset (cols : List String) (rows : List Row) (n : Nat) (r : Row)
    (h : ∀ x ∈ rows, x.horse_id = r.horse_id → dltB x.race_date r.race_date = false) :
    computeFeatures cols rows n r = r := by
  have hfil : (horseRaces rows r.horse_id).filter
      (fun x => dltB x.race_date r.race_date) = [] := by
    rw [List.filter_eq_nil_iff]
    intro x hx
    have hx2 := List.mem_filter.mp (mem_sortRowsByDate.mp hx)
    have hid : x.horse_id = r.horse_id := by simpa using hx2.2
    simp [h x hx2.1 hid]
  have hw : prevWindow rows n r = [] := by
    simp [prevWindow, hfil, lastN]
  simp [computeFeatures, hw]

theorem C4_witness : computeFeatures [] [c1row 1 1 1] 5 (c1row 1 1 1) = c1row 1 1 1 :=
  C4_empty_window_leaves_unset [] [c1row 1 1 1] 5 (c1row 1 1 1)
    (by intro x hx _; simp only [List.mem_singleton] at hx; subst hx; simp [c1row, dltB])

theorem closestByRank_mem (q : ℚ) : ∀ (x : L3fStatsRow) (l : List L3fStatsRow),
    closestByRank q x l ∈ x :: l
  | _, [] => List.mem_singleton.mpr rfl
  | x, y :: ys => by
    simp only [closestByRank]
    by_cases h : |y.last_3f_rank - q| < |x.last_3f_rank - q|
    · rw [if_pos h]
      exact List.mem_cons_of_mem _ (closestByRank_mem q y ys)
    · rw [if_neg h]
      rcases List.mem_cons.mp (closestByRank_mem q x ys) with he | hmem
      · rw [he]
        exact List.mem_cons_self _ _
      · exact List.mem_cons_of_mem _ (List.mem_cons_of_mem _ hmem)

theorem closestByRank_min (q : ℚ) : ∀ (x : L3fStatsRow) (l : List L3fStatsRow),
    ∀ r ∈ x :: l, |(closestByRank q x l).last_3f_rank - q| ≤ |r.last_3f_rank - q|
  | x, [], r, h => by
    have : r = x := by simpa using h
    subst this
    exact le_refl _
  | x, y :: ys, r, h => by
    simp only [closestByRank]
    by_cases hxy : |y.last_3f_rank - q| < |x.last_3f_rank - q|
    · rw [if_pos hxy]
      rcases List.mem_cons.mp h with he | h2
      · subst he
        exact le_trans (closestByRank_min q y ys y (List.mem_cons_self _ _)) (le_of_lt hxy)
      · exact closestByRank_min q y ys r h2
    · rw [if_neg hxy]
      rcases List.mem_cons.mp h with he | h2
      · subst he
        exact closestByRank_min q r ys r (List.mem_cons_self _ _)
      · rcases List.mem_cons.mp h2 with he | h3
        · subst he
          exact le_trans (closestByRank_min q x ys x (List.mem_cons_self _ _)) (not_lt.mp hxy)
        · exact closestByRank_min q x ys r (List.mem_cons_of_mem _ h3)

/-- C8 (amended): the three keyed ROI builders (sire×track,
jockey×course, horse×course) return the first cached row's ROI normalised
to the cached table's mean times 100 when the key matches a cached row,
and exactly 100.0 when no cached row matches.  The rank×ROI builder's
accessor follows a different convention: its neutral value is `1.0`, not
`100.0` — it returns exactly `1.0` when the queried popularity group has
no cached row, and otherwise the ROI of the cached rank closest to the
queried rank (no exact-key requirement) divided by that slice's mean ROI,
with no `× 100`. -/
theorem C8_score_default_policy :
    (∀ (table : List SireAggRow) (sn tt bc : String),
      (∀ r ∈ table, ¬(r.sire_name = sn ∧ r.track_type = tt ∧ r.baba_condition = bc)) →
      get_sire_track_roi_score table sn tt bc = 100) ∧
    (∀ (table : List SireAggRow) (sn tt bc : String) (row : SireAggRow),
      table.find? (fun r => r.sire_name == sn && r.track_type == tt &&
        r.baba_condition == bc) = some row →
      get_sire_track_roi_score table sn tt bc =
        row.roi_percentage / meanRoi (table.map (fun r => r.roi_percentage)) * 100) ∧
    (∀ (table : List HorseAggRow) (hid cn tt dc : String),
      (∀ r ∈ table,
        ¬(r.horse_id = hid ∧ r.course_name = cn ∧ r.track_type = tt ∧
          r.distance_category = dc)) →
      get_course_roi_score table hid cn tt dc = 100) ∧
    (∀ (table : List HorseAggRow) (hid cn tt dc : String) (row : HorseAggRow),
      table.find? (fun r => r.horse_id == hid && r.course_name == cn &&
        r.track_type == tt && r.distance_category == dc) = some row →
      get_course_roi_score table hid cn tt dc =
        row.roi_percentage / meanRoi (table.map (fun r => r.roi_percentage)) * 100) ∧
    (∀ (table : List JockeyAggRow) (jc cn tt dc : String),
      (∀ r ∈ table,
        ¬(r.kishu_code = jc ∧ r.course_name = cn ∧ r.track_type = tt ∧
          r.distance_category = dc)) →
      get_jockey_course_roi_score table jc cn tt dc = 100) ∧
    (∀ (table : List JockeyAggRow) (jc cn tt dc : String) (row : JockeyAggRow),
      table.find? (fun r => r.kishu_code == jc && r.course_name == cn &&
        r.track_type == tt && r.distance_category == dc) = some row →
      get_jockey_course_roi_score table jc cn tt dc =
        row.roi_percentage / meanRoi (table.map (fun r => r.roi_percentage)) * 100) ∧
    (∀ (table : List L3fStatsRow) (q : ℚ) (pg : String),
      get_last_3f_roi_stats table pg = [] →
      get_last_3f_roi_adjustment table q pg = 1) ∧
    (∀ (table : List L3fStatsRow) (q : ℚ) (pg : String) (x : L3fStatsRow)
        (xs : List L3fStatsRow),
      get_last_3f_roi_stats table pg = x :: xs →
      ∃ row ∈ x :: xs,
        get_last_3f_roi_adjustment table q pg =
          row.roi / meanRoi ((x :: xs).map (fun r => r.roi)) ∧
        ∀ r' ∈ x :: xs, |row.last_3f_rank - q| ≤ |r'.last_3f_rank - q|) := by
  refine ⟨?_, ?_, ?_, ?_, ?_, ?_, ?_, ?_⟩
  · intro table sn tt bc h
    have hf : table.find? (fun r => r.sire_name == sn && r.track_type == tt &&
        r.baba_condition == bc) = none := by
      rw [List.find?_eq_none]
      intro r hr
      simpa [not_and] using h r hr
    simp [get_sire_track_roi_score, hf]
  · intro table sn tt bc row hf
    simp [get_sire_track_roi_score, hf]
  · intro table hid cn tt dc h
    have hf : table.find? (fun r => r.horse_id == hid && r.course_name == cn &&
        r.track_type == tt && r.distance_category == dc) = none := by
      rw [List.find?_eq_none]
      intro r hr
      simpa [not_and] using h r hr
    simp [get_course_roi_score, hf]
  · intro table hid cn tt dc row hf
    simp [get_course_roi_score, hf]
  · intro table jc cn tt dc h
    have hf : table.find? (fun r => r.kishu_code == jc && r.course_name == cn &&
        r.track_type == tt && r.distance_category == dc) = none := by
      rw [List.find?_eq_none]
      intro r hr
      simpa [not_and] using h r hr
    simp [get_jockey_course_roi_score, hf]
  · intro table jc cn tt dc row hf
    simp [get_jockey_course_roi_score, hf]
  · intro table q pg h
    simp [get_last_3f_roi_adjustment, h]
  · intro table q pg x xs hs
    refine ⟨closestByRank q x xs, closestByRank_mem q x xs, ?_,
      fun r' hr' => closestByRank_min q x xs r' hr'⟩
    simp [get_last_3f_roi_adjustment, hs]

/-- C8 counterexample: the rank×ROI builder's accessor, queried with a
popularity group absent from its non-empty cache (so the queried key
combination has no cached row), returns `1.0`, not the `100.0` the claim
asserts for every builder. -/
theorem C8_counterexample :
    get_last_3f_roi_adjustment c8l3fMissTable 1 "人気馬(1-3位)" = 1 ∧
    get_last_3f_roi_adjustment c8l3fMissTable 1 "人気馬(1-3位)" ≠ 100 := by
  constructor
  · decide
  · decide

theorem C8_witness :
    get_sire_track_roi_score c8sireTable "B" "芝" "良" = 100 ∧
    get_course_roi_score c8horseTable "H2" "東京" "芝" "中距離" = 100 ∧
    get_jockey_course_roi_score c8jockeyTable "J2" "東京" "芝" "短距離" = 100 ∧
    ∃ row ∈ c8l3fRow1 :: [c8l3fRow2],
      get_last_3f_roi_adjustment c8l3fTable 1 "全体" =
        row.roi / meanRoi ((c8l3fRow1 :: [c8l3fRow2]).map (fun r => r.roi)) ∧
      ∀ r' ∈ c8l3fRow1 :: [c8l3fRow2], |row.last_3f_rank - 1| ≤ |r'.last_3f_rank - 1| :=
  ⟨C8_score_default_policy.1 c8sireTable "B" "芝" "良"
      (by intro r hr; simp [c8sireTable] at hr; simp [hr]),
   C8_score_default_policy.2.2.1 c8horseTable "H2" "東京" "芝" "中距離"
      (by intro r hr; simp [c8horseTable] at hr; simp [hr]),
   C8_score_default_policy.2.2.2.2.1 c8jockeyTable "J2" "東京" "芝" "短距離"
      (by intro r hr; simp [c8jockeyTable] at hr; simp [hr]),
   C8_score_default_policy.2.2.2.2.2.2.2 c8l3fTable 1 "全体" c8l3fRow1 [c8l3fRow2]
      (by decide)⟩

theorem rateOf_nonneg (w : List Row) (p : Row → Bool) : 0 ≤ rateOf w p := by
  unfold rateOf
  positivity

theorem rateOf_le_one (w : List Row) (p : Row → Bool) : rateOf w p ≤ 1 := by
  unfold rateOf
  rcases Nat.eq_zero_or_pos w.length with h0 | h0
  · have hnil : w = [] := List.length_eq_zero.mp h0
    norm_num [hnil]
  · rw [div_le_one (by exact_mod_cast h0)]
    exact_mod_cast List.countP_le_length p

theorem rateOf_mono {w : List Row} {p q : Row → Bool}
    (h : ∀ x ∈ w, p x = true → q x = true) : rateOf w p ≤ rateOf w q := by
  unfold rateOf
  exact div_le_div_of_nonneg_right (by exact_mod_cast List.countP_mono_left h) (by positivity)

theorem isOneQ_le {v : Option ℚ} (h : isOneQ v = true) : leQ 2 v = true := by
  cases v with
  | none => simp [isOneQ] at h
  | some q =>
    simp only [isOneQ, decide_eq_true_eq] at h
    simp only [leQ, decide_eq_true_eq, h]
    norm_num

theorem leQ_mono {k k' : ℚ} (hk : k ≤ k') {v : Option ℚ} (h : leQ k v = true) :
    leQ k' v = true := by
  cases v with
  | none => simp [leQ] at h
  | some q =>
    simp only [leQ, decide_eq_true_eq] at h ⊢
    exact le_trans h hk

/-- C7: whenever a row's window is non-empty, the rolling-history stage's
per-row transform stores win, top-2 and top-3 rates that all lie in
`[0, 1]` and satisfy top-3 ≥ top-2 ≥ win — rows of the window with a
missing finishing rank count toward the denominator and toward no
numerator, so the bounds survive missing data. -/
theorem C7_rate_bounds (cols : List String) (rows : List Row) (n : Nat) (r : Row)
    (h : prevWindow rows n r ≠ []) :
    ∃ wr t2 t3 : ℚ,
      (computeFeatures cols rows n r).win_rate_last_n = some wr ∧
      (computeFeatures cols rows n r).top2_rate_last_n = some t2 ∧
      (computeFeatures cols rows n r).top3_rate_last_n = some t3 ∧
      0 ≤ wr ∧ wr ≤ t2 ∧ t2 ≤ t3 ∧ t3 ≤ 1 := by
  obtain ⟨lr, hlr⟩ : ∃ lr, (prevWindow rows n r).getLast? = some lr := by
    cases hw : (prevWindow rows n r).getLast? with
    | none => exact absurd (List.getLast?_eq_none_iff.mp hw) h
    | some lr => exact ⟨lr, rfl⟩
  refine ⟨rateOf (prevWindow rows n r) (fun x => isOneQ x.rank),
          rateOf (prevWindow rows n r) (fun x => leQ 2 x.rank),
          rateOf (prevWindow rows n r) (fun x => leQ 3 x.rank),
          ?_, ?_, ?_, rateOf_nonneg _ _, ?_, ?_, rateOf_le_one _ _⟩
  · simp [computeFeatures, hlr]
  · simp [computeFeatures, hlr]
  · simp [computeFeatures, hlr]
  · exact rateOf_mono (fun x _ hx => isOneQ_le hx)
  · exact rateOf_mono (fun x _ hx => leQ_mono (by norm_num) hx)

theorem C7_witness :
    ∃ wr t2 t3 : ℚ,
      (computeFeatures [] c7rows 5 { c1row 12 2 1 with horse_id := 2 }).win_rate_last_n = some wr ∧
      (computeFeatures [] c7rows 5 { c1row 12 2 1 with horse_id := 2 }).top2_rate_last_n = some t2 ∧
      (computeFeatures [] c7rows 5 { c1row 12 2 1 with horse_id := 2 }).top3_rate_last_n = some t3 ∧
      0 ≤ wr ∧ wr ≤ t2 ∧ t2 ≤ t3 ∧ t3 ≤ 1 :=
  C7_rate_bounds [] c7rows 5 { c1row 12 2 1 with horse_id := 2 } (by decide)

/-- C1: every row of a rolling window belongs to the same horse and is
strictly earlier in reference date; a window never exceeds `n` rows; and
in the 6-race scenario (dates 1 < … < 6, window 3) the 6th race's window
is exactly the races of dates 3, 4, 5 — the three most recent — and the
stage stores its win rate as (wins among those 3)/3 = 1/3 (the full
win-rate column of the scenario frame is `[none, 1, 1, 1, 2/3, 1/3]`). -/
theorem C1_window_correctness :
    (∀ (rows : List Row) (n : Nat) (r x : Row), x ∈ prevWindow rows n r →
        x.horse_id = r.horse_id ∧ dltB x.race_date r.race_date = true) ∧
    (∀ (rows : List Row) (n : Nat) (r : Row), (prevWindow rows n r).length ≤ n) ∧
    prevWindow c1df.rows 3 (c1row 6 6 3) = [c1row 3 3 1, c1row 4 4 4, c1row 5 5 2] ∧
    (add_previous_races_features c1df 3).rows.map (fun r => r.win_rate_last_n) =
      [none, some 1, some 1, some 1, some (2/3), some (1/3)] := by
  refine ⟨fun rows n r x h => mem_prevWindow h, fun rows n r => length_lastN_le n _, ?_, ?_⟩
  · decide
  · have e : (add_previous_races_features c1df 3).rows
        = c1df.rows.map (fun r => computeFeatures c1df.cols c1df.rows 3 r) := by
      rw [add_previous_races_features, if_neg (by decide), if_pos (by decide)]
    have h2 : (prevWindow c1df.rows 3 (c1row 2 2 1)).getLast? = some (c1row 1 1 1) := by decide
    have h3 : (prevWindow c1df.rows 3 (c1row 3 3 1)).getLast? = some (c1row 2 2 1) := by decide
    have h4 : (prevWindow c1df.rows 3 (c1row 4 4 4)).getLast? = some (c1row 3 3 1) := by decide
    have h5 : (prevWindow c1df.rows 3 (c1row 5 5 2)).getLast? = some (c1row 4 4 4) := by decide
    have h6 : (prevWindow c1df.rows 3 (c1row 6 6 3)).getLast? = some (c1row 5 5 2) := by decide
    have p2 : (prevWindow c1df.rows 3 (c1row 2 2 1)).countP (fun x => isOneQ x.rank) = 1 := by
      decide
    have q2 : (prevWindow c1df.rows 3 (c1row 2 2 1)).length = 1 := by decide
    have p3 : (prevWindow c1df.rows 3 (c1row 3 3 1)).countP (fun x => isOneQ x.rank) = 2 := by
      decide
    have q3 : (prevWindow c1df.rows 3 (c1row 3 3 1)).length = 2 := by decide
    have p4 : (prevWindow c1df.rows 3 (c1row 4 4 4)).countP (fun x => isOneQ x.rank) = 3 := by
      decide
    have q4 : (prevWindow c1df.rows 3 (c1row 4 4 4)).length = 3 := by decide
    have p5 : (prevWindow c1df.rows 3 (c1row 5 5 2)).countP (fun x => isOneQ x.rank) = 2 := by
      decide
    have q5 : (prevWindow c1df.rows 3 (c1row 5 5 2)).length = 3 := by decide
    have p6 : (prevWindow c1df.rows 3 (c1row 6 6 3)).countP (fun x => isOneQ x.rank) = 1 := by
      decide
    have q6 : (prevWindow c1df.rows 3 (c1row 6 6 3)).length = 3 := by decide
    rw [e]
    show [(computeFeatures c1df.cols c1df.rows 3 (c1row 1 1 1)).win_rate_last_n,
          (computeFeatures c1df.cols c1df.rows 3 (c1row 2 2 1)).win_rate_last_n,
          (computeFeatures c1df.cols c1df.rows 3 (c1row 3 3 1)).win_rate_last_n,
          (computeFeatures c1df.cols c1df.rows 3 (c1row 4 4 4)).win_rate_last_n,
          (computeFeatures c1df.cols c1df.rows 3 (c1row 5 5 2)).win_rate_last_n,
          (computeFeatures c1df.cols c1df.rows 3 (c1row 6 6 3)).win_rate_last_n] = _
    refine List.ext_getElem? (fun i => ?_)
    match i with
    | 0 => decide
    | 1 =>
      simp only [computeFeatures, h2, List.getElem?_cons_zero, List.getElem?_cons_succ]
      rw [rateOf, p2, q2]; norm_num
    | 2 =>
      simp only [computeFeatures, h3, List.getElem?_cons_zero, List.getElem?_cons_succ]
      rw [rateOf, p3, q3]; norm_num
    | 3 =>
      simp only [computeFeatures, h4, List.getElem?_cons_zero, List.getElem?_cons_succ]
      rw [rateOf, p4, q4]; norm_num
    | 4 =>
      simp only [computeFeatures, h5, List.getElem?_cons_zero, List.getElem?_cons_succ]
      rw [rateOf, p5, q5]; norm_num
    | 5 =>
      simp only [computeFeatures, h6, List.getElem?_cons_zero, List.getElem?_cons_succ]
      rw [rateOf, p6, q6]; norm_num
    | (m + 6) => rfl

theorem C1_witness :
    (c1row 3 3 1).horse_id = (c1row 6 6 3).horse_id ∧
    dltB (c1row 3 3 1).race_date (c1row 6 6 3).race_date = true :=
  C1_window_correctness.1 c1df.rows 3 (c1row 6 6 3) (c1row 3 3 1) (by decide)

/-- C2: within a race group, a row with a non-missing final-furlong time
receives the ascending 1-based competition rank `1 + #{strictly smaller
times}` (so tied times share the minimum position of the tie), a row with
a missing time is passed through untouched (its rank cell stays unset),
and the `[35.2, 35.2, 34.9]` scenario race comes out ranked `[2, 2, 1]`. -/
theorem C2_competition_rank :
    (∀ (g : List Row) (i : Nat) (r : Row) (v : ℚ), g[i]? = some r → r.last_3f = some v →
      (rankGroup g)[i]? =
        some { r with last_3f_rank := some (competitionRank (last3fVals g) v) }) ∧
    (∀ (g : List Row) (i : Nat) (r : Row), g[i]? = some r → r.last_3f = none →
      (rankGroup g)[i]? = some r) ∧
    (calculate_last_3f_rank c2df).rows.map (fun r => r.last_3f_rank) =
      [some 2, some 2, some 1] := by
  refine ⟨?_, ?_, ?_⟩
  · intro g i r v hg hv
    have hm : (rankGroup g)[i]? = (g[i]?).map (fun r =>
        match r.last_3f with
        | some v => { r with last_3f_rank := some (competitionRank (last3fVals g) v) }
        | none => r) := by
      simp [rankGroup]
    rw [hm, hg]
    simp [hv]
  · intro g i r hg hv
    have hm : (rankGroup g)[i]? = (g[i]?).map (fun r =>
        match r.last_3f with
        | some v => { r with last_3f_rank := some (competitionRank (last3fVals g) v) }
        | none => r) := by
      simp [rankGroup]
    rw [hm, hg]
    simp [hv]
  · have e : (calculate_last_3f_rank c2df).rows
        = (raceKeys c2df.rows).flatMap
            (fun k => rankGroup (c2df.rows.filter (fun r => r.race_id == k))) := by
      rw [calculate_last_3f_rank, if_neg (by simp [c2df]), if_pos (by decide)]
    have hk : raceKeys c2df.rows = [7] := by decide
    have hfil : c2df.rows.filter (fun r => r.race_id == 7) = c2df.rows := by
      simp [c2df, c2row]
    rw [e, hk]
    simp only [List.flatMap_cons, List.flatMap_nil, List.append_nil, hfil]
    simp only [rankGroup, last3fVals, c2df, c2row, List.filterMap_cons, List.filterMap_nil,
      List.map_cons, List.map_nil]
    norm_num [competitionRank, List.countP_cons, List.countP_nil]

theorem C2_witness :
    (rankGroup c2df.rows)[2]? =
      some { c2row 3 34.9 with
             last_3f_rank := some (competitionRank (last3fVals c2df.rows) 34.9) } :=
  C2_competition_rank.1 c2df.rows 2 (c2row 3 34.9) 34.9 rfl rfl

theorem sqlWinOddsSum_eq_zero : ∀ {g : List SqlEntry},
    (∀ e ∈ g, e.rank ≠ 1) → sqlWinOddsSum g = 0
  | [], _ => by simp [sqlWinOddsSum]
  | a :: t, h => by
    have ht := sqlWinOddsSum_eq_zero (g := t) (fun e he => h e (List.mem_cons_of_mem _ he))
    simp only [sqlWinOddsSum, List.map_cons, List.sum_cons] at ht ⊢
    rw [if_neg (h a (List.mem_cons_self _ _)), ht]
    ring

theorem sqlWinOddsSum_allwin : ∀ {g : List SqlEntry} {X : ℚ},
    (∀ e ∈ g, e.rank = 1 ∧ e.odds = X) → sqlWinOddsSum g = g.length * X
  | [], _, _ => by simp [sqlWinOddsSum]
  | a :: t, X, h => by
    have ht := sqlWinOddsSum_allwin (g := t) (X := X)
      (fun e he => h e (List.mem_cons_of_mem _ he))
    have ha := h a (List.mem_cons_self _ _)
    simp only [sqlWinOddsSum, List.map_cons, List.sum_cons] at ht ⊢
    rw [if_pos ha.1, ha.2, ht, List.length_cons]
    push_cast
    ring

theorem pentry_allwin_filterMap : ∀ {g : List PEntry} {X : ℚ},
    (∀ e ∈ g, e.rank = some 1 ∧ e.odds = some X) →
    (g.filter (fun e => e.rank == some 1)).filterMap (fun e => e.odds) =
      List.replicate g.length X
  | [], _, _ => by simp
  | a :: t, X, h => by
    have ht := pentry_allwin_filterMap (g := t) (X := X)
      (fun e he => h e (List.mem_cons_of_mem _ he))
    have ha := h a (List.mem_cons_self _ _)
    simp only [List.filter_cons, List.length_cons, List.replicate_succ]
    rw [if_pos (by simp [ha.1]), List.filterMap_cons, ha.2, ht]

theorem nonwin_filterMap_eq_nil {g : List PEntry} (h : pWins g = 0) :
    (g.filter (fun e => e.rank == some 1)).filterMap (fun e => e.odds) = [] := by
  have hfil : g.filter (fun e => e.rank == some 1) = [] := by
    rw [List.filter_eq_nil_iff]
    intro e he
    exact (List.countP_eq_zero.mp h) e he
  rw [hfil, List.filterMap_nil]

theorem winners_filterMap_length : ∀ {g : List PEntry},
    (∀ e ∈ g, e.rank = some 1 → e.odds ≠ none) →
    ((g.filter (fun e => e.rank == some 1)).filterMap (fun e => e.odds)).length
      = g.countP (fun e => e.rank == some 1)
  | [], _ => by simp
  | a :: t, h => by
    have ht := winners_filterMap_length (g := t)
      (fun e he hr => h e (List.mem_cons_of_mem _ he) hr)
    by_cases ha : (a.rank == some 1) = true
    · obtain ⟨x, hx⟩ := Option.ne_none_iff_exists'.mp
        (h a (List.mem_cons_self _ _) (by simpa using ha))
      rw [List.filter_cons, if_pos ha, List.filterMap_cons, hx]
      rw [List.countP_cons, if_pos ha]
      simp [ht]
    · rw [List.filter_cons, if_neg ha, List.countP_cons, if_neg ha]
      simpa using ht

/-- C3 (amended): for the SQL builders a zero-win grouping's ROI is
exactly 0 and an all-win-at-odds-`k/10` grouping's ROI is exactly
`100 × (k/10)` (the SQL rounds to 2 decimals, which fixes these values);
for the in-process rank×ROI builder a grouping with at least one win (and
each winner's odds present) has ROI exactly (sum of winning odds)/count ×
100 — in particular an all-win-at-odds-X grouping has ROI `100 × X` — but
a zero-win grouping's ROI is NaN (`none`), not 0.0. -/
theorem C3_roi_formulas :
    (∀ g : List SqlEntry, sqlWins g = 0 → sqlRoiPct g = 0) ∧
    (∀ (g : List SqlEntry) (k : Nat), g ≠ [] →
      (∀ e ∈ g, e.rank = 1 ∧ e.odds = (k : ℚ) / 10) →
      sqlRoiPct g = 100 * ((k : ℚ) / 10)) ∧
    (∀ g : List PEntry, pWins g = 0 → last3fRoi g = none) ∧
    (∀ g : List PEntry, pWins g ≠ 0 → (∀ e ∈ g, e.rank = some 1 → e.odds ≠ none) →
      last3fRoi g =
        some (((g.filter (fun e => e.rank == some 1)).filterMap (fun e => e.odds)).sum
          / ((g.length : Nat) : ℚ) * 100)) ∧
    (∀ (g : List PEntry) (X : ℚ), g ≠ [] →
      (∀ e ∈ g, e.rank = some 1 ∧ e.odds = some X) →
      last3fRoi g = some (100 * X)) := by
  refine ⟨?_, ?_, ?_, ?_, ?_⟩
  · intro g h
    have hz : sqlWinOddsSum g = 0 :=
      sqlWinOddsSum_eq_zero (fun e he hr =>
        absurd ((List.countP_eq_zero.mp h) e he) (by simp [hr]))
    simp [sqlRoiPct, hz, round2]
  · intro g k hne h
    have hlen : ((g.length : Nat) : ℚ) ≠ 0 := by
      have : g.length ≠ 0 := by simpa [List.length_eq_zero] using hne
      exact_mod_cast this
    have hsum : sqlWinOddsSum g = g.length * ((k : ℚ) / 10) := sqlWinOddsSum_allwin h
    have harg : sqlWinOddsSum g / ((g.length : Nat) : ℚ) * 100 = ((10 * k : Nat) : ℚ) := by
      rw [hsum, mul_div_cancel_left₀ _ hlen]
      push_cast
      ring
    rw [sqlRoiPct, harg, round2]
    have h1 : ((10 * k : Nat) : ℚ) * 100 = ((1000 * k : Nat) : ℚ) := by
      push_cast
      ring
    rw [h1, round_natCast]
    push_cast
    ring
  · intro g h
    have hv := nonwin_filterMap_eq_nil h
    simp [last3fRoi, pAvgWinOdds, hv]
  · intro g h hodds
    have hl := winners_filterMap_length hodds
    have hvne : ((g.filter (fun e => e.rank == some 1)).filterMap (fun e => e.odds)) ≠ [] := by
      intro hnil
      rw [hnil] at hl
      exact h (by simpa [pWins] using hl.symm)
    rw [last3fRoi, pAvgWinOdds]
    simp only [if_neg hvne, Option.map_some']
    congr 1
    rw [hl]
    have hw : ((g.countP (fun e => e.rank == some 1) : Nat) : ℚ) ≠ 0 := by
      have : g.countP (fun e => e.rank == some 1) ≠ 0 := by simpa [pWins] using h
      exact_mod_cast this
    rw [pWins, div_mul_cancel₀ _ hw]
  · intro g X hne h
    have hrep := pentry_allwin_filterMap h
    have hlen : ((g.length : Nat) : ℚ) ≠ 0 := by
      have : g.length ≠ 0 := by simpa [List.length_eq_zero] using hne
      exact_mod_cast this
    have hwins : pWins g = g.length := by
      rw [pWins, List.countP_eq_length]
      intro e he
      simp [(h e he).1]
    have hrepne : List.replicate g.length X ≠ [] := by
      simpa [List.replicate_eq_nil_iff] using
        (by simpa [List.length_eq_zero] using hne : g.length ≠ 0)
    rw [last3fRoi, pAvgWinOdds]
    simp only [hrep, if_neg hrepne, Option.map_some', List.sum_replicate, List.length_replicate,
      hwins]
    congr 1
    rw [nsmul_eq_mul]
    field_simp
    ring

/-- C3 counterexample: the in-process rank×ROI builder gives a zero-win
grouping (one entry, rank 2, odds 3) the ROI `NaN` (`none`), not the 0.0
the claim asserts for every builder. -/
theorem C3_counterexample :
    last3fRoi c3zeroWinGroup = none ∧ last3fRoi c3zeroWinGroup ≠ some 0 := by
  constructor
  · decide
  · decide

theorem C3_witness :
    sqlRoiPct c3sqlAllWin = 100 * ((5 : ℚ) / 10) ∧
    last3fRoi c3allWinGroup = some (100 * ((25 : ℚ) / 10)) :=
  ⟨C3_roi_formulas.2.1 c3sqlAllWin 5 (by simp [c3sqlAllWin])
      (by
        intro e he
        simp only [c3sqlAllWin, List.mem_cons, List.mem_singleton] at he
        rcases he with rfl | rfl | h
        · exact ⟨rfl, rfl⟩
        · exact ⟨rfl, rfl⟩
        · exact absurd h (by simp)),
   C3_roi_formulas.2.2.2.2 c3allWinGroup ((25 : ℚ) / 10) (by simp [c3allWinGroup])
      (by
        intro e he
        simp only [c3allWinGroup, List.mem_cons, List.mem_singleton] at he
        rcases he with rfl | rfl | h
        · exact ⟨rfl, rfl⟩
        · exact ⟨rfl, rfl⟩
        · exact absurd h (by simp))⟩

theorem mem_insertKey {a k : Nat} {l : List Nat} :
    a ∈ insertKey k l ↔ a = k ∨ a ∈ l := by
  induction l with
  | nil => simp [insertKey]
  | cons x xs ih =>
    by_cases h1 : k < x
    · simp [insertKey, h1, List.mem_cons]
    · by_cases h2 : k = x
      · subst h2
        have e : insertKey k (k :: xs) = k :: xs := by
          simp [insertKey, h1]
        rw [e]
        simp only [List.mem_cons]
        tauto
      · simp only [insertKey, if_neg h1, if_neg h2, List.mem_cons, ih]
        tauto

theorem insertKey_sorted {k : Nat} : ∀ {l : List Nat},
    l.Pairwise (· < ·) → (insertKey k l).Pairwise (· < ·)
  | [], _ => by simp [insertKey]
  | x :: xs, h => by
    rcases List.pairwise_cons.mp h with ⟨hx, hxs⟩
    by_cases h1 : k < x
    · rw [insertKey, if_pos h1]
      refine List.pairwise_cons.mpr ⟨?_, h⟩
      intro b hb
      rcases List.mem_cons.mp hb with rfl | hb
      · exact h1
      · exact lt_trans h1 (hx b hb)
    · by_cases h2 : k = x
      · rw [insertKey, if_neg h1, if_pos h2]
        exact h
      · rw [insertKey, if_neg h1, if_neg h2]
        refine List.pairwise_cons.mpr ⟨?_, insertKey_sorted hxs⟩
        intro b hb
        rcases mem_insertKey.mp hb with rfl | hb
        · omega
        · exact hx b hb

theorem raceKeys_sorted (rows : List Row) : (raceKeys rows).Pairwise (· < ·) := by
  rw [raceKeys]
  induction rows.map (fun r => r.race_id) with
  | nil => simp
  | cons a t ih => exact insertKey_sorted ih

theorem raceKeys_nodup (rows : List Row) : (raceKeys rows).Nodup :=
  (raceKeys_sorted rows).imp (fun h => Nat.ne_of_lt h)

theorem mem_raceKeys {rows : List Row} {r : Row} (h : r ∈ rows) :
    r.race_id ∈ raceKeys rows := by
  rw [raceKeys]
  induction rows with
  | nil => simp at h
  | cons a t ih =>
    simp only [List.map_cons, List.foldr_cons]
    rcases List.mem_cons.mp h with rfl | hmem
    · exact mem_insertKey.mpr (Or.inl rfl)
    · exact mem_insertKey.mpr (Or.inr (ih hmem))

theorem flatMap_congr {l : List Nat} {f g : Nat → List Row} (h : ∀ a ∈ l, f a = g a) :
    l.flatMap f = l.flatMap g := by
  induction l with
  | nil => rfl
  | cons a t ih =>
    simp only [List.flatMap_cons]
    rw [h a (List.mem_cons_self _ _), ih (fun b hb => h b (List.mem_cons_of_mem _ hb))]

theorem flatMap_filter_perm : ∀ (keys : List Nat) (l : List Row),
    keys.Nodup → (∀ r ∈ l, r.race_id ∈ keys) →
    List.Perm (keys.flatMap (fun k => l.filter (fun r => r.race_id == k))) l
  | [], l, _, hc => by
    cases l with
    | nil => simp
    | cons a t => exact absurd (hc a (List.mem_cons_self _ _)) (by simp)
  | k :: ks, l, hnd, hc => by
    rcases List.nodup_cons.mp hnd with ⟨hk, hnd'⟩
    have step : ∀ k' ∈ ks, l.filter (fun r => r.race_id == k')
        = (l.filter (fun r => !(r.race_id == k))).filter (fun r => r.race_id == k') := by
      intro k' hk'
      have hne : k' ≠ k := fun e => hk (e ▸ hk')
      rw [List.filter_filter]
      apply List.filter_congr
      intro r _
      by_cases h : r.race_id = k'
      · simp [h, hne]
      · simp [h]
    have hc' : ∀ r ∈ l.filter (fun r => !(r.race_id == k)), r.race_id ∈ ks := by
      intro r hr
      have hmem := List.mem_filter.mp hr
      rcases List.mem_cons.mp (hc r hmem.1) with he | hin
      · exact absurd he (by simpa using hmem.2)
      · exact hin
    have IH := flatMap_filter_perm ks (l.filter (fun r => !(r.race_id == k))) hnd' hc'
    have e0 : (k :: ks).flatMap (fun k' => l.filter (fun r => r.race_id == k'))
        = l.filter (fun r => r.race_id == k) ++
            ks.flatMap (fun k' =>
              (l.filter (fun r => !(r.race_id == k))).filter (fun r => r.race_id == k')) := by
      rw [List.flatMap_cons, flatMap_congr step]
    rw [e0]
    exact (IH.append_left _).trans (List.filter_append_perm _ l)

theorem stripRank_rankGroup (g : List Row) :
    (rankGroup g).map stripRank = g.map stripRank := by
  simp only [rankGroup, List.map_map]
  apply List.map_congr_left
  intro r _
  cases h : r.last_3f <;> simp [Function.comp, stripRank, h]

/-- C5 (amended): the derived-rank stage keeps exactly the input rows up
to the added rank cell — `stripRank`-images of the output rows are a
permutation of those of the input for every input — but the overall row
order is preserved only when the input is already grouped by ascending
race id: pandas ≥ 2 `groupby.apply` (whose MultiIndex the source drops)
re-concatenates the races in ascending race-id order, as the two-race
counterexample frame shows (`[2, 1]` comes out as `[1, 2]`). -/
theorem C5_row_identity_perm :
    (∀ df : DataFrame,
      List.Perm ((calculate_last_3f_rank df).rows.map stripRank) (df.rows.map stripRank)) ∧
    (calculate_last_3f_rank c5df).rows.map (fun r => r.race_id) = [1, 2] := by
  constructor
  · intro df
    rw [calculate_last_3f_rank]
    by_cases h1 : df.rows = []
    · simp [h1]
    · rw [if_neg h1]
      by_cases h2 : df.cols.contains "last_3f"
      · rw [if_pos h2]
        show List.Perm (((raceKeys df.rows).flatMap
            (fun k => rankGroup (df.rows.filter (fun r => r.race_id == k)))).map stripRank)
          (df.rows.map stripRank)
        have e1 : ((raceKeys df.rows).flatMap
              (fun k => rankGroup (df.rows.filter (fun r => r.race_id == k)))).map stripRank
            = (raceKeys df.rows).flatMap
              (fun k => (df.rows.filter (fun r => r.race_id == k)).map stripRank) := by
          rw [List.map_flatMap]
          exact flatMap_congr (fun k _ => stripRank_rankGroup _)
        rw [e1, ← List.map_flatMap]
        exact (flatMap_filter_perm _ _ (raceKeys_nodup df.rows)
          (fun r hr => mem_raceKeys hr)).map stripRank
      · rw [if_neg h2]
  · decide

/-- C5 counterexample: the derived-rank stage does not preserve the
original row order — on the two-race frame whose race ids arrive as
`[2, 1]` the output rows carry race ids `[1, 2]`. -/
theorem C5_counterexample :
    (calculate_last_3f_rank c5df).rows.map (fun r => r.race_id) ≠
      c5df.rows.map (fun r => r.race_id) := by
  decide

theorem replaceInfV_idem (v : Val) : replaceInfV (replaceInfV v) = replaceInfV v := by
  cases v <;> rfl

theorem toNumeric_shape (v : Val) :
    (∃ q, toNumeric v = .vnum q) ∨ toNumeric v = .vnan ∨ ∃ b, toNumeric v = .vinf b := by
  cases v with
  | vstr s =>
    rw [toNumeric]
    by_cases h1 : s = "inf"
    · rw [if_pos h1]
      exact Or.inr (Or.inr ⟨true, rfl⟩)
    · rw [if_neg h1]
      by_cases h2 : s = "-inf"
      · rw [if_pos h2]
        exact Or.inr (Or.inr ⟨false, rfl⟩)
      · rw [if_neg h2]
        cases hp : parseRatStr s with
        | some q => exact Or.inl ⟨q, rfl⟩
        | none => exact Or.inr (Or.inl rfl)
  | vnum q => exact Or.inl ⟨q, rfl⟩
  | vinf b => exact Or.inr (Or.inr ⟨b, rfl⟩)
  | vnan => exact Or.inr (Or.inl rfl)
  | vdate d => exact Or.inr (Or.inl rfl)

theorem coerce_core (v : Val) :
    replaceInfV (toNumeric (replaceInfV (toNumeric v))) = replaceInfV (toNumeric v) := by
  rcases toNumeric_shape v with ⟨q, h⟩ | h | ⟨b, h⟩ <;> rw [h] <;> rfl

theorem coerceCell_idem (p : Bool) (v : Val) :
    coerceCell p (coerceCell p v) = coerceCell p v := by
  cases p
  · simp only [coerceCell, Bool.false_eq_true, if_false]
    exact replaceInfV_idem v
  · simp only [coerceCell, if_true]
    exact coerce_core v

theorem concatDateV_replaceInf (a b : Val) :
    concatDateV (replaceInfV a) (replaceInfV b) = concatDateV a b := by
  cases a <;> cases b <;> rfl

theorem cleanRow_idem (f : CCols) (r : CRow) : cleanRow f (cleanRow f r) = cleanRow f r := by
  simp only [cleanRow, CRow.mk.injEq]
  refine ⟨?_, ?_, ?_, ?_, ?_, ?_, ?_, ?_, ?_, ?_, ?_, ?_, ?_, ?_, ?_, ?_, ?_, ?_, ?_, ?_, ?_, ?_⟩
  · exact coerceCell_idem _ _
  · exact coerceCell_idem _ _
  · exact coerceCell_idem _ _
  · exact coerceCell_idem _ _
  · exact coerceCell_idem _ _
  · exact coerceCell_idem _ _
  · exact coerceCell_idem _ _
  · exact coerceCell_idem _ _
  · exact replaceInfV_idem _
  · exact replaceInfV_idem _
  · exact replaceInfV_idem _
  · exact replaceInfV_idem _
  · exact replaceInfV_idem _
  · exact replaceInfV_idem _
  · exact replaceInfV_idem _
  · cases hP : (f.kaisai_nen && f.kaisai_tsukihi) <;>
      simp [hP, concatDateV_replaceInf, replaceInfV_idem]
  · cases hP : f.track_code <;> simp [hP, replaceInfV_idem]
  · cases hP : f.babajotai_code <;> simp [hP, replaceInfV_idem]
  · cases hP : f.barei <;> simp [hP, replaceInfV_idem]
  · cases hP : f.seibetsu_code <;> simp [hP, replaceInfV_idem]
  · cases hP : (f.bataiju && f.zogen_fugo && f.zogen_sa) <;>
      simp [hP, coerceCell_idem, replaceInfV_idem]
  · rw [List.map_map]
    apply List.map_congr_left
    intro p _
    simp [Function.comp, replaceInfV_idem]

/-- C6: the cleaning stage is idempotent — cleaning already-cleaned data
changes nothing.  Every derived cell is recomputed from source columns the
stage never modifies, the numeric coercion composed with the inf→nan
replacement is stable on its own output, and the empty-input passthrough
is trivially stable. -/
theorem C6_cleaning_idempotent (df : CDF) :
    clean_race_data (clean_race_data df) = clean_race_data df := by
  rcases df with ⟨cols, rows⟩
  by_cases h : rows = []
  · simp [clean_race_data, h]
  · have h2 : rows.map (cleanRow cols) ≠ [] := by
      simpa [List.map_eq_nil_iff] using h
    have e1 : clean_race_data ⟨cols, rows⟩ = ⟨cols, rows.map (cleanRow cols)⟩ := by
      simp [clean_race_data, h]
    have e2 : clean_race_data ⟨cols, rows.map (cleanRow cols)⟩
        = ⟨cols, (rows.map (cleanRow cols)).map (cleanRow cols)⟩ := by
      simp [clean_race_data, h2]
    rw [e1, e2, List.map_map]
    congr 1
    apply List.map_congr_left
    intro r _
    exact cleanRow_idem cols r

end JRA
